import Mathlib

/-!
Verification of the LLM ETL framework core (`src/llm_etl`).

This file gives a shallow embedding of the execution and retry engine:
the per-record state container (`core/state.py`), the exception hierarchy
(`core/exceptions.py`), the retrying completion client (`llm/client.py`),
the step abstraction (`steps/base.py`), the two business-rule steps
(`steps/classifier.py`, `steps/summarizer.py`) and the pipeline
orchestrator (`core/pipeline.py`), and proves the testable properties of
the design document about these definitions.

Modelling conventions:
* Python dictionaries are insertion-ordered association lists
  (`List (String × Value)`), with `setItem` overwriting in place.
* Python exceptions become the inductive `PyExc`; fallible code returns
  `Except PyExc _` or passes the (possibly partially mutated) state
  alongside the outcome, mirroring in-place mutation.
* `KeyboardInterrupt` is a `PyExc` that `isException` rejects, mirroring
  the fact that `except Exception` does not catch it in Python.
* Wall-clock timing (latency in the payload log, run duration) is outside
  the model; timestamps are drawn from an abstract clock value passed in.
* `datetime` is modelled by `DateTime` with a textual codec
  (`DateTime.isoformat` / `DateTime.fromisoformat`) that keeps the two
  stdlib properties the code relies on: the codec round-trips and an
  encoded timestamp is a non-empty (truthy) string.
-/

set_option autoImplicit false

namespace LlmEtl

/-- JSON-like values carried in record fields, payload logs and
dead-letter lines. -/
inductive Value where
  | none
  | bool (b : Bool)
  | int (n : Int)
  | str (s : String)
  | list (xs : List Value)
  | dict (xs : List (String × Value))
  deriving Repr, BEq

/-- A Python `dict[str, ...]`: insertion-ordered association list with
unique keys maintained by `setItem`. -/
abbrev PyDict := List (String × Value)

/-- The `d[k]` lookup: first (hence only) binding of `k`. -/
def PyDict.lookup? (d : PyDict) (k : String) : Option Value :=
  match d with
  | [] => Option.none
  | (k2, v) :: rest => if k2 = k then some v else PyDict.lookup? rest k

/-- The `d[k] = v`: overwrite in place if the key exists, else append.
This is Python dict assignment (insertion order kept on overwrite). -/
def PyDict.setItem (d : PyDict) (k : String) (v : Value) : PyDict :=
  match d with
  | [] => [(k, v)]
  | (k2, v2) :: rest =>
      if k2 = k then (k2, v) :: rest else (k2, v2) :: PyDict.setItem rest k v

/-- The `k in d` membership test. -/
def PyDict.hasKey (d : PyDict) (k : String) : Bool :=
  (PyDict.lookup? d k).isSome

/-- Model of `datetime`: an abstract clock value. -/
def DateTime := Nat

instance : DecidableEq DateTime := inferInstanceAs (DecidableEq Nat)

instance : Repr DateTime := inferInstanceAs (Repr Nat)

instance : BEq DateTime := inferInstanceAs (BEq Nat)

instance (n : Nat) : OfNat DateTime n := inferInstanceAs (OfNat Nat n)

/-- Model of `datetime.isoformat`: an injective textual encoding of the
timestamp.  The model keeps the stdlib facts the code relies on: the
string is never empty (so it is truthy) and `fromisoformat` inverts it. -/
def DateTime.isoformat (d : DateTime) : String :=
  String.mk ('d' :: List.replicate d 't')

/-- Model of `datetime.fromisoformat`, the parser inverting
`DateTime.isoformat` on its image. -/
def DateTime.fromisoformat (s : String) : DateTime :=
  s.length - 1

theorem DateTime.fromisoformat_isoformat (d : DateTime) :
    DateTime.fromisoformat (DateTime.isoformat d) = d := by
  simp [DateTime.isoformat, DateTime.fromisoformat, String.length]

theorem DateTime.isoformat_ne_empty (d : DateTime) :
    DateTime.isoformat d ≠ "" := by
  intro h
  have := congrArg String.length h
  simp [DateTime.isoformat, String.length] at this

/-- A single quote character, used when rendering Python error messages. -/
def sq : String := String.mk [Char.ofNat 39]

/-- Python exceptions raised by the embedded code (`core/exceptions.py`
plus the builtin ones the core raises or handles).  `keyboardInterrupt`
models `KeyboardInterrupt`, which is a `BaseException`, not an
`Exception`. -/
inductive PyExc where
  | keyboardInterrupt
  | typeError (msg : String)
  | valueError (msg : String)
  | keyError (msg : String)
  | llmValidation (step_name : String) (pk : String)
      (validation_errors : List String) (retry_count : Nat)
  | stepExecutionError (step_name : String) (pk : String) (original : PyExc)
  | sinkError (pk : String) (original : PyExc)
  | sourceError (msg : String)
  | other (typeName : String) (msg : String)
  deriving Repr, BEq, DecidableEq

/-- The `type(e).__name__`. -/
def PyExc.typeName : PyExc → String
  | .keyboardInterrupt => "KeyboardInterrupt"
  | .typeError _ => "TypeError"
  | .valueError _ => "ValueError"
  | .keyError _ => "KeyError"
  | .llmValidation .. => "LLMValidationError"
  | .stepExecutionError .. => "StepExecutionError"
  | .sinkError .. => "SinkError"
  | .sourceError _ => "SourceError"
  | .other t _ => t

/-- The `str(e)`, following the message formats of `core/exceptions.py`. -/
def PyExc.message : PyExc → String
  | .keyboardInterrupt => ""
  | .typeError m => m
  | .valueError m => m
  | .keyError m => m
  | .llmValidation sn pk errs rc =>
      "Step " ++ sq ++ sn ++ sq ++ " validation failed for pk=" ++ sq ++ pk ++ sq
        ++ " after " ++ toString rc ++ " retries. Errors: "
        ++ String.intercalate "; " errs
  | .stepExecutionError sn pk orig =>
      "Step " ++ sq ++ sn ++ sq ++ " failed for pk=" ++ sq ++ pk ++ sq ++ ": "
        ++ orig.typeName ++ ": " ++ orig.message
  | .sinkError pk orig =>
      "Failed to write pk=" ++ sq ++ pk ++ sq ++ " to sink: "
        ++ orig.typeName ++ ": " ++ orig.message
  | .sourceError m => m
  | .other _ m => m

/-- Whether `except Exception` catches this: everything except
`KeyboardInterrupt` (the only `BaseException`-not-`Exception` in the
model). -/
def PyExc.isException : PyExc → Bool
  | .keyboardInterrupt => false
  | _ => true

/-! ## GlobalState (`core/state.py`)

The record: immutable raw data behind a `MappingProxyType`, mutable
`processed` dict and `log` list, creation and completion timestamps. -/

/-- The `GlobalState`: the per-row unit of work.  `raw` is the backing dict of
the `MappingProxyType` view created in `__init__`. -/
structure GlobalState where
  pk : String
  raw : PyDict
  processed : PyDict
  log : List String
  created_at : DateTime
  completed_at : Option DateTime
  deriving Repr, BEq

/-- The `GlobalState.__init__`: optional arguments default to empty dict /
empty list / the current clock `now` / `None`. -/
def GlobalState.init (pk : String) (raw : PyDict)
    (processed : Option PyDict) (log : Option (List String))
    (created_at : Option DateTime) (completed_at : Option DateTime)
    (now : DateTime) : GlobalState :=
  { pk := pk
    raw := raw
    processed := processed.getD []
    log := log.getD []
    created_at := created_at.getD now
    completed_at := completed_at }

/-- Attempting `state.raw[k] = v`.  The raw data sits behind a
`MappingProxyType`, whose item assignment always raises `TypeError`; the
state is returned unchanged alongside the error, mirroring that the
failed statement mutates nothing. -/
def GlobalState.rawSetItem (st : GlobalState) (_k : String) (_v : Value) :
    Except PyExc Unit × GlobalState :=
  (.error (.typeError
    ("" ++ sq ++ "mappingproxy" ++ sq ++ " object does not support item assignment")),
    st)

/-- The `state.raw[k]` read access through the proxy view. -/
def GlobalState.rawGet (st : GlobalState) (k : String) : Option Value :=
  PyDict.lookup? st.raw k

/-- The `GlobalState.to_dict`: serialize to a plain dict; datetimes become
ISO strings, `None` stays `None`; `created_at` is always set after
construction, so it always serializes to a string. -/
def GlobalState.to_dict (st : GlobalState) : PyDict :=
  [ ("pk", .str st.pk)
  , ("raw", .dict st.raw)
  , ("processed", .dict st.processed)
  , ("log", .list (st.log.map Value.str))
  , ("created_at", .str (DateTime.isoformat st.created_at))
  , ("completed_at",
      match st.completed_at with
      | Option.none => Value.none
      | some d => .str (DateTime.isoformat d)) ]

/-- Truthiness of an optional dict entry, as used by
`data.get("created_at")`: absent, `None` and `""` are falsy. -/
def entryTruthy : Option Value → Bool
  | Option.none => false
  | some Value.none => false
  | some (.str s) => s ≠ ""
  | some (.bool b) => b
  | some (.int n) => n ≠ 0
  | some (.list xs) => ¬xs.isEmpty
  | some (.dict xs) => ¬xs.isEmpty

/-- Coerce a serialized string list back to `List String`.  On the image
of `to_dict` every element is a string; other values cannot occur there
and are dropped (Python would store them untyped). -/
def strListOfValue : Value → List String
  | .list xs => xs.filterMap fun v => match v with | .str s => some s | _ => Option.none
  | _ => []

/-- The `GlobalState.from_dict`: rebuild a state from `to_dict` output.
`data["pk"]` and `data["raw"]` raise `KeyError` when absent; the
timestamp fields go through the truthiness guard and `fromisoformat`;
missing `processed` / `log` default to empty.  Values of the wrong shape
cannot arise from `to_dict`; the model raises `TypeError` where Python
would defer the failure. -/
def GlobalState.from_dict (data : PyDict) (now : DateTime) :
    Except PyExc GlobalState := do
  let pkv ← match PyDict.lookup? data "pk" with
    | some v => Except.ok v
    | Option.none => Except.error (.keyError ("pk"))
  let pk ← match pkv with
    | .str s => Except.ok s
    | _ => Except.error (.typeError "pk is not a string")
  let rawv ← match PyDict.lookup? data "raw" with
    | some v => Except.ok v
    | Option.none => Except.error (.keyError ("raw"))
  let raw ← match rawv with
    | .dict d => Except.ok d
    | _ => Except.error (.typeError "raw is not a dict")
  let processed : PyDict :=
    match PyDict.lookup? data "processed" with
    | some (.dict d) => d
    | _ => []
  let log : List String :=
    match PyDict.lookup? data "log" with
    | some v => strListOfValue v
    | Option.none => []
  let created_at : Option DateTime :=
    if entryTruthy (PyDict.lookup? data "created_at") then
      match PyDict.lookup? data "created_at" with
      | some (.str s) => some (DateTime.fromisoformat s)
      | _ => Option.none
    else Option.none
  let completed_at : Option DateTime :=
    if entryTruthy (PyDict.lookup? data "completed_at") then
      match PyDict.lookup? data "completed_at" with
      | some (.str s) => some (DateTime.fromisoformat s)
      | _ => Option.none
    else Option.none
  return GlobalState.init pk raw (some processed) (some log) created_at completed_at now

/-! ## Retrying completion client (`llm/client.py`)

`LLMClientWithRetry.complete_with_validation` wraps an underlying
`LLMClient.complete`.  The underlying client is modelled as an oracle
from the attempt index to that call's behavior: a schema-valid value, a
pydantic `ValidationError`, or a non-validation failure. -/

/-- One role-tagged chat message. -/
structure Message where
  role : String
  content : String
  deriving Repr, BEq

/-- Behavior of one `client.complete` call: schema-valid value, pydantic
`ValidationError` (with its message), or any other exception (type name
and message). -/
inductive CompletionOutcome (α : Type) where
  | ok (v : α)
  | invalid (msg : String)
  | fail (typeName : String) (msg : String)
  deriving Repr, BEq

/-- The underlying `LLMClient`: attempt index ↦ behavior of that call. -/
def ClientOracle (α : Type) := Nat → CompletionOutcome α

/-- One line of the append-only payload log written by `_log_payload`
(every attempt logs exactly one line; the latency and timestamp fields
are wall-clock data outside the model). -/
structure PayloadLog (α : Type) where
  step : String
  pk : String
  request : List Message
  response : Option α
  retry_count : Nat
  error : Option String
  deriving Repr, BEq

/-- Result of `complete_with_validation`: outcome, number of calls made
to the underlying client, the final (copied) message list, and the
payload-log lines appended. -/
structure RetryOut (α : Type) where
  result : Except PyExc α
  calls : Nat
  messages : List Message
  logs : List (PayloadLog α)
  deriving Repr

/-- The synthetic user-role message appended after a validation failure
when attempts remain. -/
def retryMessage (errorMsg : String) : Message :=
  { role := "user"
    content := "Your previous response failed validation: " ++ errorMsg
      ++ ". Please fix and try again." }

/-- The retry loop of `complete_with_validation`.  `fuel` is the number
of remaining iterations of `for attempt in range(max_retries + 1)` and
`attempt` the current index, so `fuel + attempt = maxRetries + 1` at
every call from the entry point.  The `fuel = 0` branch models the
implicit `return None` after an exhausted loop; it is unreachable from
the entry point because the last iteration always returns or raises. -/
def retryGo {α : Type} (client : ClientOracle α) (maxRetries : Nat)
    (step_name : String) (pk : String) :
    Nat → Nat → List Message → List String → List (PayloadLog α) → RetryOut α
  | 0, attempt, msgs, _accErr, logs =>
      { result := .error (.other "NoneType" "loop exhausted"), calls := attempt
        messages := msgs, logs := logs }
  | fuel + 1, attempt, msgs, accErr, logs =>
      match client attempt with
      | .ok v =>
          { result := .ok v
            calls := attempt + 1
            messages := msgs
            logs := logs ++ [{ step := step_name, pk := pk, request := msgs
                               response := some v, retry_count := attempt
                               error := Option.none }] }
      | .invalid m =>
          let accErr2 := accErr ++ [m]
          let logs2 := logs ++ [{ step := step_name, pk := pk, request := msgs
                                  response := Option.none, retry_count := attempt
                                  error := some m }]
          if attempt < maxRetries then
            retryGo client maxRetries step_name pk fuel (attempt + 1)
              (msgs ++ [retryMessage m]) accErr2 logs2
          else
            { result := .error (.llmValidation step_name pk accErr2 (maxRetries + 1))
              calls := attempt + 1
              messages := msgs
              logs := logs2 }
      | .fail t m =>
          { result := .error (.other t m)
            calls := attempt + 1
            messages := msgs
            logs := logs ++ [{ step := step_name, pk := pk, request := msgs
                               response := Option.none, retry_count := attempt
                               error := some (t ++ ": " ++ m) }] }

/-- The `LLMClientWithRetry.complete_with_validation`: run the retry loop on
a copy of the caller's message list, starting at attempt 0 with no
accumulated errors. -/
def complete_with_validation {α : Type} (client : ClientOracle α)
    (maxRetries : Nat) (messages : List Message) (step_name : String)
    (pk : String) : RetryOut α :=
  retryGo client maxRetries step_name pk (maxRetries + 1) 0 messages [] []

/-! ## Step abstraction (`steps/base.py`)

`AbstractBaseStep.run` applies the input map, calls `execute`, stores the
dumped result under `output_key` and appends the step name to the log.
The extractors are referentially transparent functions of the state (the
contract of the row-as-lambda-extractor pattern); they may raise.
`execute` is abstract here: any function of the mapped inputs and the
primary key (the retry client a concrete `execute` uses is baked into
that function). -/

/-- One input-map extractor: a pure function of the state that may raise
(e.g. `KeyError` on a missing raw field). -/
def Extractor := GlobalState → Except PyExc Value

/-- The `AbstractBaseStep._apply_input_map`: evaluate every extractor in
order; the first raising extractor aborts the comprehension. -/
def applyInputMap (input_map : List (String × Extractor)) (st : GlobalState) :
    Except PyExc PyDict :=
  match input_map with
  | [] => .ok []
  | (k, f) :: rest => do
      let v ← f st
      let tail ← applyInputMap rest st
      return (k, v) :: tail

/-- The `AbstractBaseStep.run`.  Returns the outcome together with the state
object as the caller sees it afterwards: the mutations of steps 3 and 4
happen only after both fallible phases (input mapping, `execute`), so a
raise leaves the state untouched. -/
def stepRun (name : String) (input_map : List (String × Extractor))
    (output_key : String)
    (execute : PyDict → String → Except PyExc Value)
    (st : GlobalState) : Except PyExc Unit × GlobalState :=
  match applyInputMap input_map st with
  | .error e => (.error e, st)
  | .ok mapped =>
      match execute mapped st.pk with
      | .error e => (.error e, st)
      | .ok result =>
          (.ok (),
            { st with
                processed := PyDict.setItem st.processed output_key result
                log := st.log ++ [name] })

/-! ## Classifier step (`steps/classifier.py`) -/

/-- A `{name, definition}` taxonomy entry. -/
structure TaxonomyCategory where
  name : String
  definition : String
  deriving Repr, BEq, DecidableEq

/-- The `ClassificationOutput`: schema-valid classifier output.  The float
confidence is carried as an abstract numeric payload; no claim computes
with it. -/
structure ClassificationOutput where
  category : String
  confidence : Nat
  reasoning : String
  deriving Repr, BEq, DecidableEq

/-- The `model_dump()` of a classification output. -/
def ClassificationOutput.model_dump (o : ClassificationOutput) : Value :=
  .dict [ ("category", .str o.category)
        , ("confidence", .int o.confidence)
        , ("reasoning", .str o.reasoning) ]

/-- A constructed `ClassifierStep` (the fields set by `__init__` that the
claims touch). -/
structure ClassifierStep where
  name : String
  output_key : String
  taxonomy : List TaxonomyCategory
  valid_categories : List String
  deriving Repr

/-- The `ClassifierStep.__init__` after taxonomy normalization: empty
taxonomy and duplicate names both raise `ValueError`; `valid_categories`
is the set of names (first occurrences kept). -/
def ClassifierStep.init (name : String) (taxonomy : List TaxonomyCategory)
    (output_key : String) : Except PyExc ClassifierStep :=
  if taxonomy.isEmpty then
    .error (.valueError "Taxonomy cannot be empty")
  else
    let valid := (taxonomy.map TaxonomyCategory.name).dedup
    if valid.length ≠ taxonomy.length then
      .error (.valueError "Taxonomy contains duplicate category names")
    else
      .ok { name := name, output_key := output_key
            taxonomy := taxonomy, valid_categories := valid }

/-- The `ClassifierStep._build_prompt`: requires a `"text"` input (else
`KeyError`); the optional `"context"` is appended when truthy. -/
def ClassifierStep.build_prompt (step : ClassifierStep) (mapped_input : PyDict) :
    Except PyExc (List Message) :=
  if ¬(PyDict.hasKey mapped_input "text") then
    .error (.keyError ("mapped_input must contain " ++ sq ++ "text" ++ sq ++ " key"))
  else
    let taxonomyStr := String.intercalate "\n"
      (step.taxonomy.map fun cat => "- " ++ cat.name ++ ": " ++ cat.definition)
    let systemMsg : Message :=
      { role := "system"
        content := "You are a precise classification system. TAXONOMY: "
          ++ taxonomyStr ++ " VALID CATEGORY NAMES: "
          ++ String.intercalate ", " step.valid_categories
          ++ " Step: " ++ step.name }
    let textVal := (PyDict.lookup? mapped_input "text").getD Value.none
    let textStr := match textVal with | .str s => s | _ => ""
    let contextPart :=
      if entryTruthy (PyDict.lookup? mapped_input "context") then
        match PyDict.lookup? mapped_input "context" with
        | some (.str c) => "\nAdditional context:\n" ++ c
        | _ => ""
      else ""
    let userMsg : Message :=
      { role := "user", content := "Text to classify:\n" ++ textStr ++ contextPart }
    .ok [systemMsg, userMsg]

/-- The `ClassifierStep._validate_category`: business rule — the returned
category must be a taxonomy member, else `ValueError`. -/
def ClassifierStep.validate_category (step : ClassifierStep)
    (result : ClassificationOutput) : Except PyExc ClassificationOutput :=
  if step.valid_categories.contains result.category then
    .ok result
  else
    .error (.valueError
      ("Invalid category " ++ sq ++ result.category ++ sq ++ ". Must be one of: "
        ++ String.intercalate ", " step.valid_categories))

/-- Result of a business-rule `execute`: outcome plus the number of calls
made to the underlying completion capability. -/
structure ExecOut (α : Type) where
  result : Except PyExc α
  calls : Nat
  deriving Repr

/-- The `ClassifierStep.execute`: build the prompt, run the retry client,
then apply the taxonomy business rule to the schema-valid result. -/
def ClassifierStep.execute (step : ClassifierStep)
    (client : ClientOracle ClassificationOutput) (maxRetries : Nat)
    (mapped_input : PyDict) (pk : String) : ExecOut ClassificationOutput :=
  match step.build_prompt mapped_input with
  | .error e => { result := .error e, calls := 0 }
  | .ok messages =>
      let r := complete_with_validation client maxRetries messages step.name pk
      match r.result with
      | .error e => { result := .error e, calls := r.calls }
      | .ok out => { result := step.validate_category out, calls := r.calls }

/-! ## Summarizer step (`steps/summarizer.py`)

The natural-language rule parsing (`_parse_rules`, fixed regular
expressions) is not exercised by any claim; a `SummarizerStep` is
embedded with its already-derived `ParsedRules`. -/

/-- The `SummaryOutput`: schema-valid summarizer output. -/
structure SummaryOutput where
  text : String
  word_count : Nat
  rules_applied : List String
  reasoning : String
  deriving Repr, BEq, DecidableEq

/-- The `model_dump()` of a summary output. -/
def SummaryOutput.model_dump (o : SummaryOutput) : Value :=
  .dict [ ("text", .str o.text)
        , ("word_count", .int o.word_count)
        , ("rules_applied", .list (o.rules_applied.map Value.str))
        , ("reasoning", .str o.reasoning) ]

/-- The `ParsedRules`: at most one word ceiling, at most one character
ceiling, required substrings. -/
structure ParsedRules where
  max_words : Option Nat
  max_chars : Option Nat
  required_terms : List String
  original_rules : List String
  deriving Repr, BEq

/-- Python `text.split()`: whitespace tokenization with empty pieces
dropped, so `len(text.split())` is the word count. -/
def pythonWordCount (s : String) : Nat :=
  ((s.split Char.isWhitespace).filter (fun w => w ≠ "")).length

/-- Substring containment on character lists (`needle in hay`). -/
def listContainsSub (hay needle : List Char) : Bool :=
  match hay with
  | [] => needle.isEmpty
  | _ :: rest => needle.isPrefixOf hay || listContainsSub rest needle

/-- Python `needle in hay` on strings. -/
def strContainsSub (hay needle : String) : Bool :=
  listContainsSub hay.data needle.data

/-- A constructed `SummarizerStep` (fields the claims touch). -/
structure SummarizerStep where
  name : String
  output_key : String
  rules : List String
  parsed_rules : ParsedRules
  deriving Repr

/-- Required-terms check of `_validate_rules`: every term must occur
(case-insensitively) in the text, else `ValueError`. -/
def SummarizerStep.validateTerms (step : SummarizerStep) (result : SummaryOutput) :
    Except PyExc SummaryOutput :=
  let missing := step.parsed_rules.required_terms.filter fun term =>
    ¬strContainsSub result.text.toLower term.toLower
  if step.parsed_rules.required_terms ≠ [] ∧ missing ≠ [] then
    .error (.valueError ("Summary must include these terms: "
      ++ String.intercalate ", " missing
      ++ ". Please revise your summary to include all required terms."))
  else .ok result

/-- Character-ceiling check of `_validate_rules`, then the
required-terms check. -/
def SummarizerStep.validateChars (step : SummarizerStep) (result : SummaryOutput) :
    Except PyExc SummaryOutput :=
  match step.parsed_rules.max_chars with
  | some mc =>
      if result.text.length > mc then
        .error (.valueError ("Summary has " ++ toString result.text.length
          ++ " characters but maximum is " ++ toString mc
          ++ ". Please shorten your summary to meet the character limit."))
      else SummarizerStep.validateTerms step result
  | Option.none => SummarizerStep.validateTerms step result

/-- The `SummarizerStep._validate_rules`: recompute the word count from the
returned text (never trust the model's own count), then check the word
ceiling, the character ceiling and the required terms in that order;
any violation raises `ValueError`. -/
def SummarizerStep.validate_rules (step : SummarizerStep)
    (result : SummaryOutput) : Except PyExc SummaryOutput :=
  let actual := pythonWordCount result.text
  let result := { result with word_count := actual }
  match step.parsed_rules.max_words with
  | some mw =>
      if actual > mw then
        .error (.valueError ("Summary has " ++ toString actual
          ++ " words but maximum is " ++ toString mw
          ++ ". Please shorten your summary to meet the word limit."))
      else SummarizerStep.validateChars step result
  | Option.none => SummarizerStep.validateChars step result

/-- The `SummarizerStep._build_prompt`. -/
def SummarizerStep.build_prompt (step : SummarizerStep) (mapped_input : PyDict) :
    List Message :=
  let rulesText := String.intercalate "\n" step.rules
  let systemMsg : Message :=
    { role := "system"
      content := "You are a precise text summarization system. RULES: " ++ rulesText }
  let textStr := match PyDict.lookup? mapped_input "text" with
    | some (.str s) => s | _ => ""
  let focusPart :=
    if PyDict.hasKey mapped_input "focus" then
      match PyDict.lookup? mapped_input "focus" with
      | some (.str f) => "\nFocus area: " ++ f
      | _ => ""
    else ""
  [ systemMsg
  , { role := "user", content := "Text to summarize:\n" ++ textStr ++ focusPart } ]

/-- The `SummarizerStep.execute`: reject empty input before any completion
call, then run the retry client, then apply the parsed-rule checks to
the schema-valid result. -/
def SummarizerStep.execute (step : SummarizerStep)
    (client : ClientOracle SummaryOutput) (maxRetries : Nat)
    (mapped_input : PyDict) (pk : String) : ExecOut SummaryOutput :=
  let textStr := match PyDict.lookup? mapped_input "text" with
    | some (.str s) => s | _ => ""
  if textStr.trim = "" then
    { result := .error (.valueError "Cannot summarize empty text"), calls := 0 }
  else
    let messages := step.build_prompt mapped_input
    let r := complete_with_validation client maxRetries messages step.name pk
    match r.result with
    | .error e => { result := .error e, calls := r.calls }
    | .ok out => { result := step.validate_rules out, calls := r.calls }

/-! ## Pipeline orchestrator (`core/pipeline.py`)

Steps and sink are abstract behaviors, matching `AbstractBaseStep` and
`AbstractSink` at the orchestrator boundary.  A step run returns its
outcome together with the (possibly mutated) state object; a
`KeyboardInterrupt` delivered during a blocking call inside
`_process_row` surfaces as an error outcome that `isException`
rejects.  The source is a finite sequence of fetches; a
`KeyboardInterrupt` delivered between records (during the fetch) is an
`interrupt` item. -/

/-- Abstract step behavior at the orchestrator boundary
(`AbstractBaseStep.run`): outcome plus the caller-visible state. -/
structure StepBehavior where
  name : String
  run : GlobalState → Except PyExc Unit × GlobalState

/-- A `StepBehavior` from a concrete `AbstractBaseStep` embedding. -/
def StepBehavior.ofBase (name : String) (input_map : List (String × Extractor))
    (output_key : String) (execute : PyDict → String → Except PyExc Value) :
    StepBehavior :=
  { name := name, run := stepRun name input_map output_key execute }

/-- Abstract sink behavior (`AbstractSink.write`): per-record success or
raised exception.  Sinks do not mutate the record. -/
structure SinkBehavior where
  write : GlobalState → Except PyExc Unit

/-- The step loop of `_process_row`: run each step in order; a raising
step's error is wrapped in `StepExecutionError` with the step name and
record key when it is an `Exception`; `KeyboardInterrupt` passes
`except Exception` unwrapped. -/
def runSteps (steps : List StepBehavior) (st : GlobalState) :
    Except PyExc Unit × GlobalState :=
  match steps with
  | [] => (.ok (), st)
  | s :: rest =>
      match s.run st with
      | (.ok _, st2) => runSteps rest st2
      | (.error e, st2) =>
          if e.isException then
            (.error (.stepExecutionError s.name st2.pk e), st2)
          else
            (.error e, st2)

/-- The `Pipeline._process_row`: run all steps, stamp `completed_at`, write
to the sink.  The outer handler re-raises `StepExecutionError` as-is and
wraps any other `Exception` with the sentinel step name `"sink"`;
`KeyboardInterrupt` is caught by neither handler.  The second component
is the state object as the caller's loop variable sees it afterwards. -/
def processRow (steps : List StepBehavior) (sink : SinkBehavior)
    (now : DateTime) (st : GlobalState) :
    Except PyExc GlobalState × GlobalState :=
  match runSteps steps st with
  | (.error e, st2) => (.error e, st2)
  | (.ok _, st2) =>
      let st3 := { st2 with completed_at := some now }
      match sink.write st3 with
      | .ok _ => (.ok st3, st3)
      | .error e =>
          match e, e.isException with
          | .stepExecutionError sn pk orig, _ =>
              (.error (.stepExecutionError sn pk orig), st3)
          | _, true => (.error (.stepExecutionError "sink" st3.pk e), st3)
          | _, false => (.error e, st3)

/-- The error-handling modes of `on_row_error` (validated strings
`"fail" | "skip" | "dead_letter"` in `__init__`). -/
inductive ErrorHandling where
  | fail
  | skip
  | dead_letter
  deriving Repr, BEq, DecidableEq

/-- One line of the dead-letter file, as the association list
`_write_dead_letter` serializes (field order is the insertion order of
the JSON object). -/
def DeadLetterLine := List (String × Value)

instance : BEq DeadLetterLine := inferInstanceAs (BEq (List (String × Value)))

/-- The one-level unwrap of `_write_dead_letter`: look through a
`StepExecutionError` wrapper to the original error. -/
def actualErrorOf : PyExc → PyExc
  | .stepExecutionError _ _ orig => orig
  | e => e

/-- The `retry_attempts` of a dead-letter line: the `retry_count` of the
(possibly wrapped) `LLMValidationError`, else 0. -/
def retryAttemptsOf (e : PyExc) : Nat :=
  match actualErrorOf e with
  | .llmValidation _ _ _ rc => rc
  | _ => 0

/-- The JSON object `_write_dead_letter` appends for one failed record. -/
def mkDeadLetterLine (st : GlobalState) (step_name : String) (error : PyExc)
    (now : DateTime) : DeadLetterLine :=
  [ ("pk", .str st.pk)
  , ("step_name", .str step_name)
  , ("error_type", .str error.typeName)
  , ("error_message", .str error.message)
  , ("raw_data", .dict st.raw)
  , ("processed_state", .dict st.processed)
  , ("steps_completed", .list (st.log.map Value.str))
  , ("timestamp", .str (DateTime.isoformat now))
  , ("retry_attempts", .int (retryAttemptsOf error)) ]

/-- The step name `_handle_error` reports: from the
`StepExecutionError` wrapper, else `"unknown"`. -/
def handledStepName : PyExc → String
  | .stepExecutionError sn _ _ => sn
  | _ => "unknown"

/-- One fetch from the source: a record, or a `KeyboardInterrupt`
delivered between records. -/
inductive SourceItem where
  | row (st : GlobalState)
  | interrupt

/-- Mutable accumulator of `Pipeline.run`: the three counters, the
records successfully handed to the sink, the dead-letter lines appended,
and the `(state, error)` pairs routed to the failure channel
(`_handle_error`). -/
structure RunAcc where
  success_count : Nat
  failure_count : Nat
  total_count : Nat
  written : List GlobalState
  deadLetters : List DeadLetterLine
  failures : List (GlobalState × PyExc)

/-- The empty accumulator at the top of `run`. -/
def RunAcc.start : RunAcc :=
  { success_count := 0, failure_count := 0, total_count := 0
    written := [], deadLetters := [], failures := [] }

/-- How the row loop of `run` ended. -/
inductive RunExit where
  | completed
  | interruptedAtFetch
  | interruptedMidRecord
  | raised (e : PyExc)
  deriving Repr, BEq

/-- The row loop of `Pipeline.run` with `_handle_error` inlined: per
record, count it, process it, and on an `Exception` apply the error
policy (`fail` re-raises the wrapped error, ending the run; `skip` and
`dead_letter` record the failure and continue).  A `KeyboardInterrupt`
from `_process_row` or from the fetch reaches the outer handler, which
swallows it and lets `run` return the partial counters. -/
def runLoop (policy : ErrorHandling) (steps : List StepBehavior)
    (sink : SinkBehavior) (now : DateTime) :
    List SourceItem → RunAcc → RunAcc × RunExit
  | [], acc => (acc, .completed)
  | SourceItem.interrupt :: _, acc => (acc, .interruptedAtFetch)
  | SourceItem.row st :: rest, acc =>
      let acc2 := { acc with total_count := acc.total_count + 1 }
      match processRow steps sink now st with
      | (.ok st2, _) =>
          runLoop policy steps sink now rest
            { acc2 with success_count := acc2.success_count + 1
                        written := acc2.written ++ [st2] }
      | (.error e, st2) =>
          if e = .keyboardInterrupt then (acc2, .interruptedMidRecord)
          else
            match policy with
            | .fail =>
                ({ acc2 with failures := acc2.failures ++ [(st2, e)] }, .raised e)
            | .skip =>
                runLoop policy steps sink now rest
                  { acc2 with failure_count := acc2.failure_count + 1
                              failures := acc2.failures ++ [(st2, e)] }
            | .dead_letter =>
                runLoop policy steps sink now rest
                  { acc2 with failure_count := acc2.failure_count + 1
                              failures := acc2.failures ++ [(st2, e)]
                              deadLetters := acc2.deadLetters
                                ++ [mkDeadLetterLine st2 (handledStepName e) e now] }

/-- The `PipelineResult` (timing omitted: wall-clock data outside the
model). -/
structure PipelineResult where
  success_count : Nat
  failure_count : Nat
  total_count : Nat
  dead_letter_path : Option String
  deriving Repr, BEq

/-- Everything `Pipeline.run` leaves behind: either a raised exception
or a `PipelineResult`, plus the sink writes, dead-letter lines and
failure-channel routings that happened along the way. -/
structure RunOutput where
  result : Except PyExc PipelineResult
  exit : RunExit
  written : List GlobalState
  deadLetters : List DeadLetterLine
  failures : List (GlobalState × PyExc)

/-- The `Pipeline.run` (non-dry): run the row loop and, unless the loop
re-raised under the `fail` policy, return the counters — also after an
interrupt, which is swallowed by the outer handler. -/
def pipelineRun (policy : ErrorHandling) (dead_letter_path : String)
    (steps : List StepBehavior) (sink : SinkBehavior) (now : DateTime)
    (source : List SourceItem) : RunOutput :=
  let (acc, ex) := runLoop policy steps sink now source RunAcc.start
  { result :=
      match ex with
      | .raised e => .error e
      | _ => .ok
          { success_count := acc.success_count
            failure_count := acc.failure_count
            total_count := acc.total_count
            dead_letter_path :=
              if acc.failure_count > 0 then some dead_letter_path else Option.none }
    exit := ex
    written := acc.written
    deadLetters := acc.deadLetters
    failures := acc.failures }

/-- The `Pipeline.run(dry_run=True)` → `_run_dry_run`: a validation-only
pass returning zero counters and touching no row. -/
def runDryRun : PipelineResult :=
  { success_count := 0, failure_count := 0, total_count := 0
    dead_letter_path := Option.none }

/-! ## Helper lemmas -/

theorem strListOfValue_map (l : List String) :
    strListOfValue (.list (l.map Value.str)) = l := by
  induction l with
  | nil => rfl
  | cons x xs ih =>
      simp only [strListOfValue, List.map_cons, List.filterMap_cons] at *
      exact congrArg (x :: ·) ih

/-- The `runSteps` leaves `raw` alone whenever every step does. -/
theorem runSteps_raw (steps : List StepBehavior) (st : GlobalState)
    (h : ∀ s ∈ steps, ∀ g, ((s.run g).2).raw = g.raw) :
    ((runSteps steps st).2).raw = st.raw := by
  induction steps generalizing st with
  | nil => rfl
  | cons s rest ih =>
      have hs := h s (List.mem_cons_self s rest)
      have hrest : ∀ x ∈ rest, ∀ g, ((x.run g).2).raw = g.raw :=
        fun x hx => h x (List.mem_cons_of_mem s hx)
      unfold runSteps
      rcases hrun : s.run st with ⟨out, st2⟩
      have hraw : st2.raw = st.raw := by
        have := hs st
        rw [hrun] at this
        exact this
      cases out with
      | ok _ => simpa [hraw] using ih st2 hrest
      | error e =>
          by_cases he : e.isException <;> simp [he, hraw]

/-- The `stepRun` (the concrete `AbstractBaseStep.run`) leaves `raw` alone. -/
theorem stepRun_raw (name : String) (im : List (String × Extractor))
    (okey : String) (ex : PyDict → String → Except PyExc Value)
    (st : GlobalState) : ((stepRun name im okey ex st).2).raw = st.raw := by
  rcases happly : applyInputMap im st with e | mapped
  · simp [stepRun, happly]
  · rcases hex : ex mapped st.pk with e | v <;> simp [stepRun, happly, hex]

/-- The `stepRun` leaves `completed_at` alone. -/
theorem stepRun_completed_at (name : String) (im : List (String × Extractor))
    (okey : String) (ex : PyDict → String → Except PyExc Value)
    (st : GlobalState) :
    ((stepRun name im okey ex st).2).completed_at = st.completed_at := by
  rcases happly : applyInputMap im st with e | mapped
  · simp [stepRun, happly]
  · rcases hex : ex mapped st.pk with e | v <;> simp [stepRun, happly, hex]

/-- On any raise, `stepRun` returns the state object unchanged. -/
theorem stepRun_error_state (name : String) (im : List (String × Extractor))
    (okey : String) (ex : PyDict → String → Except PyExc Value)
    (st : GlobalState) (e : PyExc)
    (h : (stepRun name im okey ex st).1 = .error e) :
    (stepRun name im okey ex st).2 = st := by
  rcases happly : applyInputMap im st with e2 | mapped
  · simp [stepRun, happly]
  · rcases hex : ex mapped st.pk with e2 | v
    · simp [stepRun, happly, hex]
    · simp [stepRun, happly, hex] at h

/-! ## Claims C7 to C10 -/

/-- C7: after construction, any attempted write to a record's origin
(raw) mapping raises a `TypeError`, the state and hence all prior and
later reads are unaffected by the attempt, and no pipeline operation —
a base-step run or a whole `_process_row` pass over raw-preserving
steps — ever mutates the origin mapping. -/
theorem claim_C7_origin_immutable :
    (∀ (st : GlobalState) (k : String) (v : Value),
        (∃ m, (st.rawSetItem k v).1 = .error (.typeError m)) ∧
        (st.rawSetItem k v).2 = st ∧
        ∀ k2, ((st.rawSetItem k v).2).rawGet k2 = st.rawGet k2) ∧
    (∀ name im okey ex st, ((stepRun name im okey ex st).2).raw = st.raw) ∧
    (∀ (steps : List StepBehavior) (sink : SinkBehavior) (now : DateTime)
        (st : GlobalState),
        (∀ s ∈ steps, ∀ g, ((s.run g).2).raw = g.raw) →
        ((processRow steps sink now st).2).raw = st.raw) := by
  refine ⟨fun st k v => ⟨⟨_, rfl⟩, rfl, fun _ => rfl⟩, stepRun_raw, ?_⟩
  intro steps sink now st h
  have hsnd : ((processRow steps sink now st).2).raw = ((runSteps steps st).2).raw := by
    unfold processRow
    rcases hrun : runSteps steps st with ⟨out, st2⟩
    cases out with
    | error e => simp
    | ok u =>
        cases hw : sink.write { st2 with completed_at := some now } with
        | ok _ => simp [hw]
        | error e => cases e <;> simp [hw, PyExc.isException]
  rw [hsnd, runSteps_raw steps st h]

/-- C7 witness: the raw-preservation hypothesis is discharged at a
concrete one-step pipeline. -/
theorem claim_C7_witness :
    ((processRow [StepBehavior.ofBase "s" [] "o" (fun _ _ => .ok Value.none)]
        ⟨fun _ => .ok ()⟩ 0
        (GlobalState.init "k" [("a", .int 1)] Option.none Option.none
          Option.none Option.none 0)).2).raw
      = (GlobalState.init "k" [("a", .int 1)] Option.none Option.none
          Option.none Option.none 0).raw :=
  claim_C7_origin_immutable.2.2 _ _ 0 _
    (by
      intro s hs g
      simp only [List.mem_singleton] at hs
      subst hs
      exact stepRun_raw _ _ _ _ g)

/-- C10: whenever `AbstractBaseStep.run` raises — during input
extraction or during `execute`, business-rule checks included — the
record's `processed` mapping and `log` (trace) are exactly as before the
call: the output key is not added and the step name is not appended. -/
theorem claim_C10_step_failure_atomic (name : String)
    (im : List (String × Extractor)) (okey : String)
    (ex : PyDict → String → Except PyExc Value) (st : GlobalState) (e : PyExc)
    (h : (stepRun name im okey ex st).1 = .error e) :
    (stepRun name im okey ex st).2.processed = st.processed ∧
    (stepRun name im okey ex st).2.log = st.log := by
  rw [stepRun_error_state name im okey ex st e h]
  exact ⟨rfl, rfl⟩

/-- C10 witness: a step whose extractor raises `KeyError` at a concrete
record leaves `processed` and `log` untouched. -/
theorem claim_C10_witness :
    ((stepRun "s" [("x", fun _ => .error (.keyError "x"))] "o"
        (fun _ _ => .ok Value.none)
        (GlobalState.init "k" [] Option.none Option.none Option.none
          Option.none 0)).2).processed = [] ∧
    ((stepRun "s" [("x", fun _ => .error (.keyError "x"))] "o"
        (fun _ _ => .ok Value.none)
        (GlobalState.init "k" [] Option.none Option.none Option.none
          Option.none 0)).2).log = [] :=
  claim_C10_step_failure_atomic "s" _ "o" _ _ (.keyError "x") rfl

/-- C8: serializing a record to its transport form (`to_dict`) and
reconstructing it (`from_dict`) yields a record whose key, origin (raw)
mapping, results (processed) mapping, trace (log), `created_at` and
`completed_at` all equal those of the original — in fact the round trip
reproduces the record exactly. -/
theorem claim_C8_round_trip (st : GlobalState) (now : DateTime) :
    GlobalState.from_dict (GlobalState.to_dict st) now = .ok st := by
  have hcreated : DateTime.isoformat st.created_at ≠ "" :=
    DateTime.isoformat_ne_empty st.created_at
  cases st with
  | mk pk raw processed log created_at completed_at =>
      cases completed_at with
      | none =>
          simp_all [GlobalState.to_dict, GlobalState.from_dict, PyDict.lookup?,
            entryTruthy, GlobalState.init, DateTime.fromisoformat_isoformat,
            strListOfValue_map, Bind.bind, Except.bind, Pure.pure, Except.pure]
      | some d =>
          have hd : DateTime.isoformat d ≠ "" := DateTime.isoformat_ne_empty d
          simp_all [GlobalState.to_dict, GlobalState.from_dict, PyDict.lookup?,
            entryTruthy, GlobalState.init, DateTime.fromisoformat_isoformat,
            strListOfValue_map, Bind.bind, Except.bind, Pure.pure, Except.pure]

/-- C9: constructing a classifier step with an empty taxonomy raises at
construction time, constructing one with duplicate category names raises
at construction time, and every successfully constructed classifier step
has a non-empty taxonomy with pairwise-distinct names. -/
theorem claim_C9_taxonomy_construction :
    (∀ name okey, ClassifierStep.init name [] okey =
        .error (.valueError "Taxonomy cannot be empty")) ∧
    (∀ name okey (tax : List TaxonomyCategory),
        ¬(tax.map TaxonomyCategory.name).Nodup →
        ∃ m, ClassifierStep.init name tax okey = .error (.valueError m)) ∧
    (∀ name okey (tax : List TaxonomyCategory) (s : ClassifierStep),
        ClassifierStep.init name tax okey = .ok s →
        s.taxonomy ≠ [] ∧ (s.taxonomy.map TaxonomyCategory.name).Nodup) := by
  refine ⟨fun name okey => rfl, ?_, ?_⟩
  · intro name okey tax hdup
    by_cases h0 : tax.isEmpty
    · exact absurd (by simp [List.isEmpty_iff.mp h0]) hdup
    · have hlen : ((tax.map TaxonomyCategory.name).dedup).length ≠ tax.length := by
        intro h
        apply hdup
        have hlen2 : ((tax.map TaxonomyCategory.name).dedup).length =
            (tax.map TaxonomyCategory.name).length := by simpa using h
        have hde := List.Sublist.eq_of_length (List.dedup_sublist _) hlen2
        rw [← hde]
        exact List.nodup_dedup _
      exact ⟨"Taxonomy contains duplicate category names",
        by simp [ClassifierStep.init, h0, hlen]⟩
  · intro name okey tax s hok
    by_cases h0 : tax.isEmpty
    · simp [ClassifierStep.init, h0] at hok
    · by_cases hlen : ((tax.map TaxonomyCategory.name).dedup).length = tax.length
      · have heq : ClassifierStep.init name tax okey =
            .ok { name := name, output_key := okey, taxonomy := tax
                  valid_categories := (tax.map TaxonomyCategory.name).dedup } := by
          simp [ClassifierStep.init, h0, hlen]
        rw [heq] at hok
        injection hok with hs
        have hnodup : (tax.map TaxonomyCategory.name).Nodup := by
          have hlen2 : ((tax.map TaxonomyCategory.name).dedup).length =
              (tax.map TaxonomyCategory.name).length := by simpa using hlen
          have hde := List.Sublist.eq_of_length (List.dedup_sublist _) hlen2
          rw [← hde]
          exact List.nodup_dedup _
        constructor
        · rw [← hs]
          simpa using fun h => h0 (by simp [h])
        · rw [← hs]
          exact hnodup
      · simp [ClassifierStep.init, h0, hlen] at hok

/-- The classifier step that `ClassifierStep.init` builds from the
singleton taxonomy used in the C9 witness. -/
def classifierW : ClassifierStep where
  name := "c"
  output_key := "o"
  taxonomy := [⟨"A", "a"⟩]
  valid_categories := ["A"]

/-- C9 witness: a duplicate-name taxonomy is rejected and a singleton
taxonomy yields a step with a non-empty, duplicate-free taxonomy. -/
theorem claim_C9_witness :
    (∃ m, ClassifierStep.init "c" [⟨"A", "a"⟩, ⟨"A", "b"⟩] "o"
        = .error (.valueError m)) ∧
    (classifierW.taxonomy ≠ [] ∧
      (classifierW.taxonomy.map TaxonomyCategory.name).Nodup) :=
  ⟨claim_C9_taxonomy_construction.2.1 "c" "o" [⟨"A", "a"⟩, ⟨"A", "b"⟩] (by decide),
    claim_C9_taxonomy_construction.2.2 "c" "o" [⟨"A", "a"⟩] classifierW rfl⟩

/-! ## Claim C1: retry budget and validation-exhaustion contents -/

/-- Whether a completion call raised a pydantic `ValidationError`. -/
def CompletionOutcome.isInvalid {α : Type} : CompletionOutcome α → Bool
  | .invalid _ => true
  | _ => false

/-- The validation-error message of a completion call (junk on the other
constructors; only used where `isInvalid` holds). -/
def invalidMsg {α : Type} : CompletionOutcome α → String
  | .invalid m => m
  | _ => ""

/-- The retry loop makes at most `attempt + fuel` calls in total. -/
theorem retryGo_calls_le {α : Type} (client : ClientOracle α) (mr : Nat)
    (sn pk : String) :
    ∀ (fuel attempt : Nat) (msgs : List Message) (accErr : List String)
      (logs : List (PayloadLog α)),
      (retryGo client mr sn pk fuel attempt msgs accErr logs).calls
        ≤ attempt + fuel := by
  intro fuel
  induction fuel with
  | zero => intro attempt msgs accErr logs; simp [retryGo]
  | succ fuel ih =>
      intro attempt msgs accErr logs
      rcases hc : client attempt with v | m | ⟨t, m⟩
      · simp [retryGo, hc]
      · by_cases hlt : attempt < mr
        · simp only [retryGo, hc, hlt, if_true]
          exact le_trans (ih (attempt + 1) _ _ _) (by omega)
        · simp only [retryGo, hc, hlt, if_false]
          omega
      · simp [retryGo, hc]

/-- If the retry loop ends in a validation-exhaustion error, the error
carries the caller's step name and key, a retry count of exactly
`maxRetries + 1`, the accumulated error strings extended by one entry
per remaining attempt — every one of which failed validation — and the
loop made exactly `maxRetries + 1` calls in total. -/
theorem retryGo_exhaustion {α : Type} (client : ClientOracle α) (mr : Nat)
    (sn pk : String) :
    ∀ (fuel attempt : Nat) (msgs : List Message) (accErr : List String)
      (logs : List (PayloadLog α)) (sn2 pk2 : String) (errs : List String)
      (rc : Nat),
      fuel + attempt = mr + 1 →
      (retryGo client mr sn pk fuel attempt msgs accErr logs).result
        = .error (.llmValidation sn2 pk2 errs rc) →
      sn2 = sn ∧ pk2 = pk ∧ rc = mr + 1 ∧
      errs = accErr
        ++ (List.range fuel).map (fun i => invalidMsg (client (attempt + i))) ∧
      (∀ i, i < fuel → (client (attempt + i)).isInvalid = true) ∧
      (retryGo client mr sn pk fuel attempt msgs accErr logs).calls = mr + 1 := by
  intro fuel
  induction fuel with
  | zero =>
      intro attempt msgs accErr logs sn2 pk2 errs rc hinv hres
      simp [retryGo] at hres
  | succ fuel ih =>
      intro attempt msgs accErr logs sn2 pk2 errs rc hinv hres
      rcases hc : client attempt with v | m | ⟨t, m⟩
      · simp [retryGo, hc] at hres
      · by_cases hlt : attempt < mr
        · simp only [retryGo, hc, hlt, if_true] at hres ⊢
          have hinv2 : fuel + (attempt + 1) = mr + 1 := by omega
          have h := ih (attempt + 1) _ _ _ sn2 pk2 errs rc hinv2 hres
          obtain ⟨h1, h2, h3, h4, h5, h6⟩ := h
          refine ⟨h1, h2, h3, ?_, ?_, by simpa [retryGo, hc, hlt] using h6⟩
          · rw [h4, List.append_assoc]
            congr 1
            rw [List.singleton_append, List.range_succ_eq_map, List.map_cons,
              List.map_map]
            congr 1
            · simp [hc, invalidMsg]
            · apply List.map_congr_left
              intro i _
              have harg : attempt + 1 + i = attempt + Nat.succ i := by omega
              simp [Function.comp, harg]
          · intro i hi
            cases i with
            | zero => simp [hc, CompletionOutcome.isInvalid]
            | succ j =>
                have hj : j < fuel := by omega
                have := h5 j hj
                have harg : attempt + 1 + j = attempt + Nat.succ j := by omega
                rwa [harg] at this
        · have hattempt : attempt = mr := by omega
          simp only [retryGo, hc, hlt, if_false] at hres ⊢
          have hfuel : fuel = 0 := by omega
          subst hfuel
          simp only [Except.error.injEq, PyExc.llmValidation.injEq] at hres
          obtain ⟨h1, h2, h3, h4⟩ := hres
          refine ⟨h1.symm, h2.symm, h4.symm, ?_, ?_, by omega⟩
          · rw [← h3]
            simp [List.range_succ_eq_map, hc, invalidMsg]
          · intro i hi
            have : i = 0 := by omega
            subst this
            simp [hc, CompletionOutcome.isInvalid]
      · simp [retryGo, hc] at hres

/-- C1: `complete_with_validation` with retry budget `maxRetries` calls
the underlying completion capability at most `maxRetries + 1` times, and
whenever it ends by raising `LLMValidationError`, that error carries the
step name, the record key, the ordered list of accumulated
validation-error strings — one per attempt, every attempt having failed
validation — and `retry_count` exactly `maxRetries + 1`. -/
theorem claim_C1_retry_budget {α : Type} (client : ClientOracle α)
    (maxRetries : Nat) (messages : List Message) (sn pk : String) :
    (complete_with_validation client maxRetries messages sn pk).calls
        ≤ maxRetries + 1 ∧
    (∀ (sn2 pk2 : String) (errs : List String) (rc : Nat),
      (complete_with_validation client maxRetries messages sn pk).result
          = .error (.llmValidation sn2 pk2 errs rc) →
      sn2 = sn ∧ pk2 = pk ∧ rc = maxRetries + 1 ∧
      errs.length = maxRetries + 1 ∧
      errs = (List.range (maxRetries + 1)).map (fun i => invalidMsg (client i)) ∧
      (∀ i, i < maxRetries + 1 → (client i).isInvalid = true) ∧
      (complete_with_validation client maxRetries messages sn pk).calls
          = maxRetries + 1) := by
  constructor
  · simpa using retryGo_calls_le client maxRetries sn pk (maxRetries + 1) 0
      messages [] []
  · intro sn2 pk2 errs rc hres
    have h := retryGo_exhaustion client maxRetries sn pk (maxRetries + 1) 0
      messages [] [] sn2 pk2 errs rc (by omega) hres
    obtain ⟨h1, h2, h3, h4, h5, h6⟩ := h
    refine ⟨h1, h2, h3, ?_, by simpa using h4, fun i hi => by simpa using h5 i hi,
      h6⟩
    rw [h4]
    simp

/-- An underlying client whose every attempt fails schema validation. -/
def oracleInvalidW : ClientOracle Unit := fun _ => .invalid "bad"

/-- C1 witness: with `maxRetries = 1` and a client that always fails
validation, the exhaustion error carries both failure messages and
retry count 2, and exactly 2 calls were made. -/
theorem claim_C1_witness :
    ("s" : String) = "s" ∧ ("k" : String) = "k" ∧ 2 = 1 + 1 ∧
    (["bad", "bad"] : List String).length = 1 + 1 ∧
    (["bad", "bad"] : List String)
      = (List.range (1 + 1)).map (fun i => invalidMsg (oracleInvalidW i)) ∧
    (∀ i, i < 1 + 1 → (oracleInvalidW i).isInvalid = true) ∧
    (complete_with_validation oracleInvalidW 1 [] "s" "k").calls = 1 + 1 :=
  (claim_C1_retry_budget oracleInvalidW 1 [] "s" "k").2 "s" "k" ["bad", "bad"] 2 rfl

/-! ## Claim C6: business rules run after the retry loop and never
feed back into it -/

/-- Every error of the summarizer term check is a plain `ValueError`. -/
theorem validateTerms_error_shape (step : SummarizerStep) (out : SummaryOutput)
    (e : PyExc) (h : step.validateTerms out = .error e) :
    ∃ m, e = .valueError m := by
  simp only [SummarizerStep.validateTerms] at h
  split at h
  · exact ⟨_, (Except.error.inj h).symm⟩
  · exact absurd h (by simp)

/-- Every error of the summarizer character check is a plain
`ValueError`. -/
theorem validateChars_error_shape (step : SummarizerStep) (out : SummaryOutput)
    (e : PyExc) (h : step.validateChars out = .error e) :
    ∃ m, e = .valueError m := by
  simp only [SummarizerStep.validateChars] at h
  rcases hmc : step.parsed_rules.max_chars with _ | mc <;> rw [hmc] at h
  · exact validateTerms_error_shape step _ e h
  · dsimp only at h
    by_cases hgt : out.text.length > mc
    · rw [if_pos hgt] at h
      exact ⟨_, (Except.error.inj h).symm⟩
    · rw [if_neg hgt] at h
      exact validateTerms_error_shape step _ e h

/-- Every error of `_validate_rules` is a plain `ValueError`. -/
theorem validate_rules_error_shape (step : SummarizerStep) (out : SummaryOutput)
    (e : PyExc) (h : step.validate_rules out = .error e) :
    ∃ m, e = .valueError m := by
  simp only [SummarizerStep.validate_rules] at h
  rcases hmw : step.parsed_rules.max_words with _ | mw <;> rw [hmw] at h
  · exact validateChars_error_shape step _ e h
  · dsimp only at h
    by_cases hgt : pythonWordCount out.text > mw
    · rw [if_pos hgt] at h
      exact ⟨_, (Except.error.inj h).symm⟩
    · rw [if_neg hgt] at h
      exact validateChars_error_shape step _ e h

/-- C6: for both business-rule steps, the business-rule check
(taxonomy membership; word/character ceilings and required substrings)
runs only after the retry client returned a schema-valid value — a
client-level error propagates out of `execute` unchanged — and a
business-rule violation surfaces as a plain `ValueError` from `execute`
while the number of completion calls stays exactly what the retry loop
already made: the violation triggers no further attempt. -/
theorem claim_C6_business_rule_no_retry :
    (∀ (step : ClassifierStep) (client : ClientOracle ClassificationOutput)
        (mr : Nat) (input : PyDict) (pk : String) (msgs : List Message),
      step.build_prompt input = .ok msgs →
      (step.execute client mr input pk).calls
          = (complete_with_validation client mr msgs step.name pk).calls ∧
      (∀ e, (complete_with_validation client mr msgs step.name pk).result
              = .error e →
        (step.execute client mr input pk).result = .error e) ∧
      (∀ out, (complete_with_validation client mr msgs step.name pk).result
              = .ok out →
        step.valid_categories.contains out.category = false →
        ∃ m, (step.execute client mr input pk).result
            = .error (.valueError m))) ∧
    (∀ (step : SummarizerStep) (client : ClientOracle SummaryOutput)
        (mr : Nat) (input : PyDict) (pk : String) (text : String),
      PyDict.lookup? input "text" = some (.str text) →
      text.trim ≠ "" →
      (step.execute client mr input pk).calls
          = (complete_with_validation client mr (step.build_prompt input)
              step.name pk).calls ∧
      (∀ e, (complete_with_validation client mr (step.build_prompt input)
              step.name pk).result = .error e →
        (step.execute client mr input pk).result = .error e) ∧
      (∀ out e, (complete_with_validation client mr (step.build_prompt input)
              step.name pk).result = .ok out →
        step.validate_rules out = .error e →
        (step.execute client mr input pk).result = .error e ∧
        ∃ m, e = .valueError m)) := by
  constructor
  · intro step client mr input pk msgs hprompt
    refine ⟨?_, ?_, ?_⟩
    · rcases hres : (complete_with_validation client mr msgs step.name pk).result
        with e | out <;>
        simp [ClassifierStep.execute, hprompt, hres]
    · intro e hres
      simp [ClassifierStep.execute, hprompt, hres]
    · intro out hres hcat
      simp only [ClassifierStep.execute, hprompt, hres,
        ClassifierStep.validate_category, hcat, Bool.false_eq_true, if_false]
      exact ⟨_, rfl⟩
  · intro step client mr input pk text hlookup htrim
    refine ⟨?_, ?_, ?_⟩
    · rcases hres : (complete_with_validation client mr (step.build_prompt input)
          step.name pk).result with e | out <;>
        simp [SummarizerStep.execute, hlookup, htrim, hres]
    · intro e hres
      simp [SummarizerStep.execute, hlookup, htrim, hres]
    · intro out e hres hrule
      exact ⟨by simp [SummarizerStep.execute, hlookup, htrim, hres, hrule],
        validate_rules_error_shape step _ e hrule⟩

/-- A client whose first attempt returns a schema-valid classification
with a category outside `classifierW`'s taxonomy. -/
def oracleBadCategory : ClientOracle ClassificationOutput :=
  fun _ => .ok ⟨"B", 1, "r"⟩

/-- The prompt `classifierW` builds for the witness input. -/
def classifierMsgsW : List Message :=
  match classifierW.build_prompt [("text", Value.str "t")] with
  | .ok msgs => msgs
  | .error _ => []

/-- C6 witness: at a concrete classifier, a schema-valid but
out-of-taxonomy category makes `execute` fail with a `ValueError` while
the call count equals the retry loop's. -/
theorem claim_C6_witness :
    (classifierW.execute oracleBadCategory 0 [("text", Value.str "t")] "k").calls
        = (complete_with_validation oracleBadCategory 0 classifierMsgsW
            classifierW.name "k").calls ∧
    ∃ m, (classifierW.execute oracleBadCategory 0
        [("text", Value.str "t")] "k").result = .error (.valueError m) := by
  have h := claim_C6_business_rule_no_retry.1 classifierW oracleBadCategory 0
    [("text", Value.str "t")] "k" classifierMsgsW rfl
  exact ⟨h.1, h.2.2 ⟨"B", 1, "r"⟩ rfl rfl⟩

/-! ## Pipeline lemmas -/

/-- The only non-`Exception` in the model is `KeyboardInterrupt`. -/
theorem isException_false (e : PyExc) (h : e.isException = false) :
    e = .keyboardInterrupt := by
  cases e <;> simp_all [PyExc.isException]

/-- Any error escaping the step loop is a `KeyboardInterrupt` or a
`StepExecutionError` wrapper. -/
theorem runSteps_error_shape (steps : List StepBehavior) (st st2 : GlobalState)
    (e : PyExc) (h : runSteps steps st = (.error e, st2)) :
    e = .keyboardInterrupt ∨ ∃ sn pk orig, e = .stepExecutionError sn pk orig := by
  induction steps generalizing st with
  | nil => simp [runSteps] at h
  | cons s rest ih =>
      rcases hrun : s.run st with ⟨out, stm⟩
      simp only [runSteps, hrun] at h
      cases out with
      | ok _ => exact ih stm h
      | error e0 =>
          by_cases hex : e0.isException
          · simp only [hex, if_true] at h
            obtain ⟨h1, _⟩ := Prod.mk.injEq .. ▸ h
            exact Or.inr ⟨s.name, stm.pk, e0, (Except.error.inj h1).symm⟩
          · simp only [hex, Bool.false_eq_true, if_false] at h
            obtain ⟨h1, _⟩ := Prod.mk.injEq .. ▸ h
            have he0 : e0 = .keyboardInterrupt :=
              isException_false e0 (by simpa using hex)
            exact Or.inl ((Except.error.inj h1).symm.trans he0)

/-- Any error escaping `_process_row` is a `KeyboardInterrupt` or a
`StepExecutionError` wrapper. -/
theorem processRow_error_shape (steps : List StepBehavior) (sink : SinkBehavior)
    (now : DateTime) (st st2 : GlobalState) (e : PyExc)
    (h : processRow steps sink now st = (.error e, st2)) :
    e = .keyboardInterrupt ∨ ∃ sn pk orig, e = .stepExecutionError sn pk orig := by
  unfold processRow at h
  rcases hrun : runSteps steps st with ⟨out, stm⟩
  rw [hrun] at h
  cases out with
  | error e0 =>
      obtain ⟨h1, _⟩ := Prod.mk.injEq .. ▸ h
      exact (Except.error.inj h1) ▸ runSteps_error_shape steps st stm e0 hrun
  | ok _ =>
      dsimp only at h
      cases hw : sink.write { stm with completed_at := some now } with
      | ok _ => rw [hw] at h; simp at h
      | error e0 =>
          rw [hw] at h
          cases e0 <;> simp_all [PyExc.isException] <;> tauto

/-- The step loop leaves `completed_at` alone whenever every step
does. -/
theorem runSteps_completed_at (steps : List StepBehavior) (st : GlobalState)
    (h : ∀ s ∈ steps, ∀ g, ((s.run g).2).completed_at = g.completed_at) :
    ((runSteps steps st).2).completed_at = st.completed_at := by
  induction steps generalizing st with
  | nil => rfl
  | cons s rest ih =>
      have hs := h s (List.mem_cons_self s rest)
      have hrest : ∀ x ∈ rest, ∀ g, ((x.run g).2).completed_at = g.completed_at :=
        fun x hx => h x (List.mem_cons_of_mem s hx)
      unfold runSteps
      rcases hrun : s.run st with ⟨out, st2⟩
      have hca : st2.completed_at = st.completed_at := by
        have := hs st
        rw [hrun] at this
        exact this
      cases out with
      | ok _ => simpa [hca] using ih st2 hrest
      | error e => by_cases he : e.isException <;> simp [he, hca]

/-! ## Claim C5: when `completed_at` is stamped -/

/-- C5 counterexample ingredients: a sink whose write always raises, and
a fresh record as a source produces it. -/
def sinkFailW : SinkBehavior :=
  { write := fun st => .error (.sinkError st.pk (.other "ConnectionError" "down")) }

/-- A sink whose write always succeeds. -/
def sinkOkW : SinkBehavior := { write := fun _ => .ok () }

/-- A fresh record as ingested from a source row. -/
def g0W : GlobalState :=
  GlobalState.init "r1" [("note", .str "x")] Option.none Option.none
    Option.none Option.none 0

/-- C5 counterexample: in a concrete run whose only record passes all
steps and then fails at the sink write, the record reaches the failure
channel (`_handle_error`) with `completed_at` already set to the stamp
time — the claim says it should still be unset there. -/
theorem claim_C5_counterexample :
    ((pipelineRun .dead_letter "dl" [] sinkFailW 7 [.row g0W]).failures.map
        (fun p => p.1.completed_at)) = [some 7] ∧
    (pipelineRun .dead_letter "dl" [] sinkFailW 7 [.row g0W]).result
      = .ok { success_count := 0, failure_count := 1, total_count := 1,
              dead_letter_path := some "dl" } :=
  ⟨rfl, rfl⟩

/-- C5 amended: `completed_at` stays unset through step execution — a
record that fails during a step reaches the failure channel with
`completed_at` still `None` (base steps never touch it) — but
`_process_row` stamps `completed_at` before the sink write, so a record
that fails at the sink write reaches the failure channel with
`completed_at` already set. -/
theorem claim_C5_completed_at_amended (steps : List StepBehavior)
    (sink : SinkBehavior) (now : DateTime) (st : GlobalState)
    (hsteps : ∀ s ∈ steps, ∀ g, ((s.run g).2).completed_at = g.completed_at)
    (hst : st.completed_at = Option.none) :
    (∀ e st2, runSteps steps st = (.error e, st2) →
        processRow steps sink now st = (.error e, st2) ∧
        st2.completed_at = Option.none) ∧
    (∀ st2 e, runSteps steps st = (.ok (), st2) →
        sink.write { st2 with completed_at := some now } = .error e →
        ((processRow steps sink now st).2).completed_at = some now ∧
        ∃ e2, (processRow steps sink now st).1 = .error e2) ∧
    (∀ name im okey ex g,
        ((stepRun name im okey ex g).2).completed_at = g.completed_at) := by
  refine ⟨?_, ?_, stepRun_completed_at⟩
  · intro e st2 hrun
    constructor
    · unfold processRow
      rw [hrun]
    · have := runSteps_completed_at steps st hsteps
      rw [hrun] at this
      exact this.trans hst
  · intro st2 e hrun hw
    unfold processRow
    rw [hrun]
    dsimp only
    rw [hw]
    cases e <;> simp [PyExc.isException]

/-- C5 witness for the amended claim: the empty step list and an
always-failing sink at a fresh record. -/
theorem claim_C5_witness :
    ((processRow [] sinkFailW 7 g0W).2).completed_at = some 7 ∧
    ∃ e2, (processRow [] sinkFailW 7 g0W).1 = .error e2 :=
  (claim_C5_completed_at_amended [] sinkFailW 7 g0W (by simp) rfl).2.1 g0W
    (.sinkError "r1" (.other "ConnectionError" "down")) rfl rfl

/-! ## Claim C2: counter invariant -/

/-- Counter invariant of the row loop: starting from consistent
counters, the loop keeps `success + failure = total` except when it was
interrupted in the middle of a record, in which case the in-flight
record is counted in `total` but in neither outcome counter. -/
theorem runLoop_counters (policy : ErrorHandling) (steps : List StepBehavior)
    (sink : SinkBehavior) (now : DateTime) :
    ∀ (items : List SourceItem) (acc0 acc : RunAcc) (ex : RunExit),
      runLoop policy steps sink now items acc0 = (acc, ex) →
      acc0.success_count + acc0.failure_count = acc0.total_count →
      ((ex = .completed ∨ ex = .interruptedAtFetch →
          acc.success_count + acc.failure_count = acc.total_count) ∧
        (ex = .interruptedMidRecord →
          acc.success_count + acc.failure_count + 1 = acc.total_count)) := by
  intro items
  induction items with
  | nil =>
      intro acc0 acc ex h hinv
      simp only [runLoop, Prod.mk.injEq] at h
      obtain ⟨h1, h2⟩ := h
      subst h1
      subst h2
      exact ⟨fun _ => hinv, by simp⟩
  | cons item rest ih =>
      intro acc0 acc ex h hinv
      cases item with
      | interrupt =>
          simp only [runLoop, Prod.mk.injEq] at h
          obtain ⟨h1, h2⟩ := h
          subst h1
          subst h2
          exact ⟨fun _ => hinv, by simp⟩
      | row st =>
          rcases hpr : processRow steps sink now st with ⟨r, stm⟩
          simp only [runLoop, hpr] at h
          cases r with
          | ok st3 =>
              dsimp only at h
              exact ih _ acc ex h (by simp only []; omega)
          | error e =>
              dsimp only at h
              by_cases hki : e = .keyboardInterrupt
              · rw [if_pos hki] at h
                injection h with h1 h2
                subst h1
                subst h2
                refine ⟨by simp, fun _ => ?_⟩
                simp only []
                omega
              · rw [if_neg hki] at h
                cases policy with
                | fail =>
                    injection h with h1 h2
                    subst h1
                    subst h2
                    exact ⟨by simp, by simp⟩
                | skip => exact ih _ acc ex h (by simp only []; omega)
                | dead_letter => exact ih _ acc ex h (by simp only []; omega)

/-- C2 counterexample ingredient: a step during whose blocking work the
external interrupt arrives (`KeyboardInterrupt` raised inside
`step.run`). -/
def stepKIW : StepBehavior :=
  { name := "boom", run := fun st => (.error .keyboardInterrupt, st) }

/-- C2 counterexample: a run whose only record is interrupted mid-record
returns partial counters with `success + failure = 0` but `total = 1` —
the row loop counts the in-flight record in `total_count` before either
outcome counter can be incremented, so the claimed identity fails for
interrupt-during-record runs. -/
theorem claim_C2_counterexample :
    (pipelineRun .dead_letter "dl" [stepKIW] sinkOkW 3 [.row g0W]).result
        = .ok { success_count := 0, failure_count := 0, total_count := 1,
                dead_letter_path := Option.none } ∧
    (0 : Nat) + 0 ≠ 1 :=
  ⟨rfl, by decide⟩

/-- C2 amended: every returned `PipelineResult` satisfies
`success_count + failure_count = total_count`, except that a run
interrupted in the middle of a record returns
`success_count + failure_count + 1 = total_count`: the in-flight record
is counted in `total_count` but in neither outcome counter.  A run
interrupted between records (at the fetch) still satisfies the original
identity. -/
theorem claim_C2_counters_amended (policy : ErrorHandling) (dlp : String)
    (steps : List StepBehavior) (sink : SinkBehavior) (now : DateTime)
    (source : List SourceItem) (res : PipelineResult)
    (hres : (pipelineRun policy dlp steps sink now source).result = .ok res) :
    res.success_count + res.failure_count = res.total_count ∨
    ((pipelineRun policy dlp steps sink now source).exit
        = .interruptedMidRecord ∧
      res.success_count + res.failure_count + 1 = res.total_count) := by
  rcases hrl : runLoop policy steps sink now source RunAcc.start with ⟨acc, ex⟩
  have hc := runLoop_counters policy steps sink now source RunAcc.start acc ex
    hrl rfl
  cases ex with
  | completed =>
      have hout : (pipelineRun policy dlp steps sink now source).result
          = .ok { success_count := acc.success_count
                  failure_count := acc.failure_count
                  total_count := acc.total_count
                  dead_letter_path :=
                    if acc.failure_count > 0 then some dlp else Option.none } := by
        unfold pipelineRun
        rw [hrl]
      rw [hout] at hres
      left
      rw [← Except.ok.inj hres]
      exact hc.1 (Or.inl rfl)
  | interruptedAtFetch =>
      have hout : (pipelineRun policy dlp steps sink now source).result
          = .ok { success_count := acc.success_count
                  failure_count := acc.failure_count
                  total_count := acc.total_count
                  dead_letter_path :=
                    if acc.failure_count > 0 then some dlp else Option.none } := by
        unfold pipelineRun
        rw [hrl]
      rw [hout] at hres
      left
      rw [← Except.ok.inj hres]
      exact hc.1 (Or.inr rfl)
  | interruptedMidRecord =>
      have hout : (pipelineRun policy dlp steps sink now source).result
          = .ok { success_count := acc.success_count
                  failure_count := acc.failure_count
                  total_count := acc.total_count
                  dead_letter_path :=
                    if acc.failure_count > 0 then some dlp else Option.none } := by
        unfold pipelineRun
        rw [hrl]
      have hexit : (pipelineRun policy dlp steps sink now source).exit
          = .interruptedMidRecord := by
        unfold pipelineRun
        rw [hrl]
      rw [hout] at hres
      right
      refine ⟨hexit, ?_⟩
      rw [← Except.ok.inj hres]
      exact hc.2 rfl
  | raised e =>
      have hout : (pipelineRun policy dlp steps sink now source).result
          = .error e := by
        unfold pipelineRun
        rw [hrl]
      rw [hout] at hres
      exact absurd hres (by simp)

/-- C2 witness for the amended claim: a normally completed one-record
run satisfies the counter identity. -/
theorem claim_C2_witness :
    ({ success_count := 1, failure_count := 0, total_count := 1,
       dead_letter_path := Option.none } : PipelineResult).success_count
        + ({ success_count := 1, failure_count := 0, total_count := 1,
             dead_letter_path := Option.none } : PipelineResult).failure_count
        = 1 ∨
    ((pipelineRun .dead_letter "dl" [] sinkOkW 3 [.row g0W]).exit
        = .interruptedMidRecord ∧
      1 + 0 + 1 = 1) := by
  have h := claim_C2_counters_amended .dead_letter "dl" [] sinkOkW 3 [.row g0W]
    { success_count := 1, failure_count := 0, total_count := 1,
      dead_letter_path := Option.none } rfl
  simp only [] at h ⊢
  exact h

/-! ## Claim C3: error-policy behavior of `run` -/

/-- Under `skip` and `dead_letter` the row loop never ends in a raise. -/
theorem runLoop_no_raise (policy : ErrorHandling) (steps : List StepBehavior)
    (sink : SinkBehavior) (now : DateTime) (hp : policy ≠ .fail) :
    ∀ (items : List SourceItem) (acc0 acc : RunAcc) (e : PyExc),
      runLoop policy steps sink now items acc0 ≠ (acc, .raised e) := by
  intro items
  induction items with
  | nil => intro acc0 acc e h; simp [runLoop] at h
  | cons item rest ih =>
      intro acc0 acc e h
      cases item with
      | interrupt => simp [runLoop] at h
      | row st =>
          rcases hpr : processRow steps sink now st with ⟨r, stm⟩
          simp only [runLoop, hpr] at h
          cases r with
          | ok st3 =>
              dsimp only at h
              exact ih _ acc e h
          | error e0 =>
              dsimp only at h
              by_cases hki : e0 = .keyboardInterrupt
              · rw [if_pos hki] at h
                simp at h
              · rw [if_neg hki] at h
                cases policy with
                | fail => exact absurd rfl hp
                | skip => exact ih _ acc e h
                | dead_letter => exact ih _ acc e h

/-- Under `fail`, a raise happens exactly at the first failing record:
everything fetched before it processed successfully, the raised error is
that record's (wrapped) processing error, nothing after it is fetched,
and the sink writes accumulated so far are kept. -/
theorem runLoop_fail_raises (steps : List StepBehavior) (sink : SinkBehavior)
    (now : DateTime) :
    ∀ (items : List SourceItem) (acc0 acc : RunAcc) (e : PyExc),
      runLoop .fail steps sink now items acc0 = (acc, .raised e) →
      ∃ pre g post, items = pre ++ SourceItem.row g :: post ∧
        (∀ x ∈ pre, ∃ gx stx, x = SourceItem.row gx ∧
            (processRow steps sink now gx).1 = .ok stx) ∧
        (processRow steps sink now g).1 = .error e ∧
        e ≠ .keyboardInterrupt ∧
        acc.written = acc0.written ++ pre.filterMap (fun x =>
          match x with
          | SourceItem.row gx => ((processRow steps sink now gx).1).toOption
          | SourceItem.interrupt => Option.none) := by
  intro items
  induction items with
  | nil => intro acc0 acc e h; simp [runLoop] at h
  | cons item rest ih =>
      intro acc0 acc e h
      cases item with
      | interrupt => simp [runLoop] at h
      | row st =>
          rcases hpr : processRow steps sink now st with ⟨r, stm⟩
          simp only [runLoop, hpr] at h
          cases r with
          | ok st3 =>
              dsimp only at h
              obtain ⟨pre, g, post, hitems, hpre, hperr, hki, hwritten⟩ :=
                ih _ acc e h
              refine ⟨SourceItem.row st :: pre, g, post,
                by rw [hitems, List.cons_append], ?_, hperr, hki, ?_⟩
              · intro x hx
                rcases List.mem_cons.mp hx with hx | hx
                · exact ⟨st, st3, hx, by rw [hpr]⟩
                · exact hpre x hx
              · rw [hwritten]
                simp only [List.filterMap_cons, hpr]
                simp [Except.toOption]
          | error e0 =>
              dsimp only at h
              by_cases hki : e0 = .keyboardInterrupt
              · rw [if_pos hki] at h
                simp at h
              · rw [if_neg hki] at h
                injection h with h1 h2
                injection h2 with h3
                subst h3
                refine ⟨[], st, rest, rfl, by simp, by rw [hpr], hki, ?_⟩
                rw [← h1]
                simp

/-- C3: under `skip` or `dead_letter` a run never raises on account of
record failures (it always returns a `PipelineResult`); under `fail` the
first record failure makes `run` re-raise that record's wrapped
`StepExecutionError` at once — everything fetched before it succeeded,
nothing after it is fetched — and the records already handed to the sink
remain in the persisted list. -/
theorem claim_C3_error_policies :
    (∀ (policy : ErrorHandling) (dlp : String) (steps : List StepBehavior)
        (sink : SinkBehavior) (now : DateTime) (source : List SourceItem),
      policy = .skip ∨ policy = .dead_letter →
      ∃ res, (pipelineRun policy dlp steps sink now source).result = .ok res) ∧
    (∀ (dlp : String) (steps : List StepBehavior) (sink : SinkBehavior)
        (now : DateTime) (source : List SourceItem) (e : PyExc),
      (pipelineRun .fail dlp steps sink now source).result = .error e →
      ∃ pre g post, source = pre ++ SourceItem.row g :: post ∧
        (∀ x ∈ pre, ∃ gx stx, x = SourceItem.row gx ∧
            (processRow steps sink now gx).1 = .ok stx) ∧
        (processRow steps sink now g).1 = .error e ∧
        (∃ sn pk orig, e = .stepExecutionError sn pk orig) ∧
        (pipelineRun .fail dlp steps sink now source).written
          = pre.filterMap (fun x =>
              match x with
              | SourceItem.row gx => ((processRow steps sink now gx).1).toOption
              | SourceItem.interrupt => Option.none)) := by
  constructor
  · intro policy dlp steps sink now source hpol
    have hp : policy ≠ .fail := by
      rcases hpol with h | h <;> subst h <;> simp
    rcases hrl : runLoop policy steps sink now source RunAcc.start with ⟨acc, ex⟩
    cases ex with
    | completed =>
        exact ⟨_, by unfold pipelineRun; rw [hrl]⟩
    | interruptedAtFetch =>
        exact ⟨_, by unfold pipelineRun; rw [hrl]⟩
    | interruptedMidRecord =>
        exact ⟨_, by unfold pipelineRun; rw [hrl]⟩
    | raised e =>
        exact absurd hrl (runLoop_no_raise policy steps sink now hp source _ acc e)
  · intro dlp steps sink now source e hres
    rcases hrl : runLoop .fail steps sink now source RunAcc.start with ⟨acc, ex⟩
    cases ex with
    | completed =>
        have hout : (pipelineRun .fail dlp steps sink now source).result
            = .ok { success_count := acc.success_count
                    failure_count := acc.failure_count
                    total_count := acc.total_count
                    dead_letter_path :=
                      if acc.failure_count > 0 then some dlp
                      else Option.none } := by
          unfold pipelineRun
          rw [hrl]
        rw [hout] at hres
        exact absurd hres (by simp)
    | interruptedAtFetch =>
        have hout : (pipelineRun .fail dlp steps sink now source).result
            = .ok { success_count := acc.success_count
                    failure_count := acc.failure_count
                    total_count := acc.total_count
                    dead_letter_path :=
                      if acc.failure_count > 0 then some dlp
                      else Option.none } := by
          unfold pipelineRun
          rw [hrl]
        rw [hout] at hres
        exact absurd hres (by simp)
    | interruptedMidRecord =>
        have hout : (pipelineRun .fail dlp steps sink now source).result
            = .ok { success_count := acc.success_count
                    failure_count := acc.failure_count
                    total_count := acc.total_count
                    dead_letter_path :=
                      if acc.failure_count > 0 then some dlp
                      else Option.none } := by
          unfold pipelineRun
          rw [hrl]
        rw [hout] at hres
        exact absurd hres (by simp)
    | raised e2 =>
        have hout : (pipelineRun .fail dlp steps sink now source).result
            = .error e2 := by
          unfold pipelineRun
          rw [hrl]
        rw [hout] at hres
        obtain rfl := Except.error.inj hres
        obtain ⟨pre, g, post, hitems, hpre, hperr, hki, hwritten⟩ :=
          runLoop_fail_raises steps sink now source RunAcc.start acc e2 hrl
        have hwr : (pipelineRun .fail dlp steps sink now source).written
            = acc.written := by
          unfold pipelineRun
          rw [hrl]
        have hshape : ∃ sn pk orig, e2 = .stepExecutionError sn pk orig := by
          rcases hprg : processRow steps sink now g with ⟨r, stm⟩
          have hr : r = .error e2 := by
            have := hperr
            rw [hprg] at this
            exact this
          subst hr
          rcases processRow_error_shape steps sink now g stm e2 hprg with h | h
          · exact absurd h hki
          · exact h
        exact ⟨pre, g, post, hitems, hpre, hperr, hshape,
          by rw [hwr, hwritten]; simp [RunAcc.start]⟩

/-- The wrapped error raised by the witness run for C3. -/
def failErrW : PyExc :=
  .stepExecutionError "sink" "r1" (.sinkError "r1" (.other "ConnectionError" "down"))

/-- C3 witness: under `skip` the failing run still returns a result;
under `fail` the concrete sink failure is re-raised as the wrapped error
of the first (and only) record. -/
theorem claim_C3_witness :
    (∃ res, (pipelineRun .skip "dl" [] sinkFailW 7 [.row g0W]).result
        = .ok res) ∧
    (∃ pre g post,
      ([SourceItem.row g0W] : List SourceItem)
          = pre ++ SourceItem.row g :: post ∧
      (∀ x ∈ pre, ∃ gx stx, x = SourceItem.row gx ∧
          (processRow [] sinkFailW 7 gx).1 = .ok stx) ∧
      (processRow [] sinkFailW 7 g).1 = .error failErrW ∧
      (∃ sn pk orig, failErrW = .stepExecutionError sn pk orig) ∧
      (pipelineRun .fail "dl" [] sinkFailW 7 [.row g0W]).written
        = pre.filterMap (fun x =>
            match x with
            | SourceItem.row gx => ((processRow [] sinkFailW 7 gx).1).toOption
            | SourceItem.interrupt => Option.none)) :=
  ⟨claim_C3_error_policies.1 .skip "dl" [] sinkFailW 7 [.row g0W] (Or.inl rfl),
    claim_C3_error_policies.2 "dl" [] sinkFailW 7 [.row g0W] failErrW rfl⟩

/-! ## Claim C4: dead-letter file contents -/

/-- Dead-letter invariant of the row loop: one line per failure-channel
routing, built by `mkDeadLetterLine`, and the failure counter equals the
number of routings. -/
theorem runLoop_deadLetter (steps : List StepBehavior) (sink : SinkBehavior)
    (now : DateTime) :
    ∀ (items : List SourceItem) (acc0 acc : RunAcc) (ex : RunExit),
      runLoop .dead_letter steps sink now items acc0 = (acc, ex) →
      acc0.deadLetters = acc0.failures.map (fun p =>
        mkDeadLetterLine p.1 (handledStepName p.2) p.2 now) →
      acc0.failure_count = acc0.failures.length →
      acc.deadLetters = acc.failures.map (fun p =>
        mkDeadLetterLine p.1 (handledStepName p.2) p.2 now) ∧
      acc.failure_count = acc.failures.length := by
  intro items
  induction items with
  | nil =>
      intro acc0 acc ex h h1 h2
      simp only [runLoop, Prod.mk.injEq] at h
      obtain ⟨ha, _⟩ := h
      subst ha
      exact ⟨h1, h2⟩
  | cons item rest ih =>
      intro acc0 acc ex h h1 h2
      cases item with
      | interrupt =>
          simp only [runLoop, Prod.mk.injEq] at h
          obtain ⟨ha, _⟩ := h
          subst ha
          exact ⟨h1, h2⟩
      | row st =>
          rcases hpr : processRow steps sink now st with ⟨r, stm⟩
          simp only [runLoop, hpr] at h
          cases r with
          | ok st3 =>
              dsimp only at h
              exact ih _ acc ex h (by simpa using h1) (by simpa using h2)
          | error e0 =>
              dsimp only at h
              by_cases hki : e0 = .keyboardInterrupt
              · rw [if_pos hki] at h
                injection h with ha _
                subst ha
                exact ⟨by simpa using h1, by simpa using h2⟩
              · rw [if_neg hki] at h
                refine ih _ acc ex h ?_ ?_
                · simp only [List.map_append]
                  rw [← h1]
                  simp
                · simp [h2]

/-- C4: under the `dead_letter` policy every record routed to the
failure channel appends exactly one dead-letter line; the file ends the
run with exactly `failure_count` lines; each line is a JSON object with
exactly the fields `pk` (the spec's `key`), `step_name`, `error_type`,
`error_message`, `raw_data`, `processed_state`, `steps_completed`,
`timestamp`, `retry_attempts`, in this order; the `retry_attempts`
field carries the wrapped error's retry count, which is 0 whenever the
underlying cause was not a validation-exhaustion error. -/
theorem claim_C4_dead_letter (dlp : String) (steps : List StepBehavior)
    (sink : SinkBehavior) (now : DateTime) (source : List SourceItem) :
    (pipelineRun .dead_letter dlp steps sink now source).deadLetters
        = (pipelineRun .dead_letter dlp steps sink now source).failures.map
            (fun p => mkDeadLetterLine p.1 (handledStepName p.2) p.2 now) ∧
    (∀ res, (pipelineRun .dead_letter dlp steps sink now source).result
          = .ok res →
        (pipelineRun .dead_letter dlp steps sink now source).deadLetters.length
          = res.failure_count) ∧
    (∀ line ∈ (pipelineRun .dead_letter dlp steps sink now source).deadLetters,
        line.map Prod.fst = ["pk", "step_name", "error_type", "error_message",
          "raw_data", "processed_state", "steps_completed", "timestamp",
          "retry_attempts"]) ∧
    (∀ (st : GlobalState) (sn : String) (e : PyExc) (t : DateTime),
        PyDict.lookup? (mkDeadLetterLine st sn e t) "retry_attempts"
          = some (.int (retryAttemptsOf e))) ∧
    (∀ e : PyExc, (∀ sn pk errs rc,
        actualErrorOf e ≠ .llmValidation sn pk errs rc) →
        retryAttemptsOf e = 0) := by
  rcases hrl : runLoop .dead_letter steps sink now source RunAcc.start
    with ⟨acc, ex⟩
  have hdl := runLoop_deadLetter steps sink now source RunAcc.start acc ex
    hrl rfl rfl
  have hDL : (pipelineRun .dead_letter dlp steps sink now source).deadLetters
      = acc.deadLetters := by
    unfold pipelineRun
    rw [hrl]
  have hF : (pipelineRun .dead_letter dlp steps sink now source).failures
      = acc.failures := by
    unfold pipelineRun
    rw [hrl]
  refine ⟨by rw [hDL, hF]; exact hdl.1, ?_, ?_, ?_, ?_⟩
  · intro res hres
    cases ex with
    | completed =>
        have hout : (pipelineRun .dead_letter dlp steps sink now source).result
            = .ok { success_count := acc.success_count
                    failure_count := acc.failure_count
                    total_count := acc.total_count
                    dead_letter_path :=
                      if acc.failure_count > 0 then some dlp
                      else Option.none } := by
          unfold pipelineRun
          rw [hrl]
        rw [hout] at hres
        rw [hDL, hdl.1, List.length_map, ← hdl.2, ← Except.ok.inj hres]
    | interruptedAtFetch =>
        have hout : (pipelineRun .dead_letter dlp steps sink now source).result
            = .ok { success_count := acc.success_count
                    failure_count := acc.failure_count
                    total_count := acc.total_count
                    dead_letter_path :=
                      if acc.failure_count > 0 then some dlp
                      else Option.none } := by
          unfold pipelineRun
          rw [hrl]
        rw [hout] at hres
        rw [hDL, hdl.1, List.length_map, ← hdl.2, ← Except.ok.inj hres]
    | interruptedMidRecord =>
        have hout : (pipelineRun .dead_letter dlp steps sink now source).result
            = .ok { success_count := acc.success_count
                    failure_count := acc.failure_count
                    total_count := acc.total_count
                    dead_letter_path :=
                      if acc.failure_count > 0 then some dlp
                      else Option.none } := by
          unfold pipelineRun
          rw [hrl]
        rw [hout] at hres
        rw [hDL, hdl.1, List.length_map, ← hdl.2, ← Except.ok.inj hres]
    | raised e =>
        have hout : (pipelineRun .dead_letter dlp steps sink now source).result
            = .error e := by
          unfold pipelineRun
          rw [hrl]
        rw [hout] at hres
        exact absurd hres (by simp)
  · intro line hline
    rw [hDL, hdl.1] at hline
    obtain ⟨p, _, hfp⟩ := List.mem_map.mp hline
    rw [← hfp]
    rfl
  · intro st sn e t
    rfl
  · intro e he
    unfold retryAttemptsOf
    cases hae : actualErrorOf e <;> try rfl
    exact absurd hae (he _ _ _ _)

/-- C4 witness: the concrete one-failure run ends with exactly one
dead-letter line, and a non-validation cause yields `retry_attempts`
0. -/
theorem claim_C4_witness :
    (pipelineRun .dead_letter "dl" [] sinkFailW 7
        [.row g0W]).deadLetters.length = 1 ∧
    retryAttemptsOf (.typeError "x") = 0 := by
  constructor
  · exact (claim_C4_dead_letter "dl" [] sinkFailW 7 [.row g0W]).2.1
      { success_count := 0, failure_count := 1, total_count := 1,
        dead_letter_path := some "dl" } rfl
  · exact (claim_C4_dead_letter "dl" [] sinkFailW 7 [.row g0W]).2.2.2.2
      (.typeError "x") (by intro sn pk errs rc; simp [actualErrorOf])

end LlmEtl
